import Mathlib

/-!
Verification of `src/pdfCropMargins/pymupdf_routines.py` (the `DocumentPages`
class) against its natural-language specification.

Shallow embedding conventions:
- Python floats are modelled as exact rationals (`ℚ`); the geometric formulas
  in the source are plain arithmetic on page coordinates.
- The external rendering library (`fitz` / PyMuPDF) is modelled through the
  narrow interface the source actually consumes: a document is a list of
  pages, a page yields a display list carrying the page rectangle, a display
  list renders to a pixmap given a (scaling) matrix, colorspace, optional
  clip rectangle and alpha flag, and a pixmap exports to an image byte
  format.  Rendering itself is external, so a pixmap is represented by the
  exact parameters the source passes to it.
- Mutable attributes of the Python object become a state record
  (`DocumentPages`); each method returns its result together with the updated
  state.  Failures of unmodelled preconditions (attribute not set, index out
  of range) are `Option.none`.
- Each page-materializing method additionally reports whether it invoked
  `getDisplayList` during the call, so that caching claims can be stated.
-/

namespace PdfCropMargins

/-- A point in page coordinate space (`fitz.Point`). -/
structure Point where
  x : ℚ
  y : ℚ
deriving DecidableEq, Repr

/-- A rectangle in page coordinate space (`fitz.Rect`), as
(left, top, right, bottom). -/
structure Rect where
  x0 : ℚ
  y0 : ℚ
  x1 : ℚ
  y1 : ℚ
deriving DecidableEq, Repr

/-- `fitz.Rect.width`. -/
def Rect.width (r : Rect) : ℚ := r.x1 - r.x0

/-- `fitz.Rect.height`. -/
def Rect.height (r : Rect) : ℚ := r.y1 - r.y0

/-- `fitz.Rect.tl`, the top-left corner. -/
def Rect.tl (r : Rect) : Point := ⟨r.x0, r.y0⟩

/-- A `fitz.Matrix(a, d)` built from two numbers is the diagonal scaling
matrix diag(a, d); only such scaling matrices occur in this source file, so
the embedding keeps just the two diagonal entries. -/
structure Matrix where
  a : ℚ
  d : ℚ
deriving DecidableEq, Repr

/-- Product of two scaling matrices (`fitz.Matrix.__mul__` restricted to the
diagonal case used at line 152 of the source). -/
def Matrix.mul (m n : Matrix) : Matrix := ⟨m.a * n.a, m.d * n.d⟩

/-- `fitz.Identity`, the identity matrix. -/
def Identity : Matrix := ⟨1, 1⟩

/-- The colorspaces the source mentions: `fitz.csGRAY` and the library
default (RGB). -/
inductive Colorspace where
  | gray
  | rgb
deriving DecidableEq, Repr

/-- A display list (`fitz.DisplayList`): a resolution-independent
intermediate rendering of one page.  `pageId` identifies the page content it
was produced from; `rect` is the page rectangle (`DisplayList.rect`). -/
structure DisplayList where
  pageId : Nat
  rect : Rect
deriving DecidableEq, Repr

/-- A page of an open document (`fitz.Page`), exposing exactly what the
source consumes: its identity and its rectangle. -/
structure Page where
  pageId : Nat
  rect : Rect
deriving DecidableEq, Repr

/-- `fitz.Page.getDisplayList()`: materialize the display list for a page. -/
def Page.getDisplayList (p : Page) : DisplayList := ⟨p.pageId, p.rect⟩

/-- An open document handle (`fitz.Document`): supports `len` (page count)
and indexed page access, which is all the source uses. -/
structure Doc where
  pages : List Page
deriving DecidableEq, Repr

/-- A pixel buffer (`fitz.Pixmap`) produced by `DisplayList.getPixmap`.
Rasterization is performed by the external library, so the pixmap is
faithfully represented by the parameters of the render request. -/
structure Pixmap where
  srcPage : Nat
  srcRect : Rect
  matrix : Matrix
  colorspace : Colorspace
  clip : Option Rect
  alpha : Bool
deriving DecidableEq, Repr

/-- `fitz.DisplayList.getPixmap(matrix, colorspace, clip, alpha)`. -/
def DisplayList.getPixmap (dl : DisplayList) (matrix : Matrix)
    (colorspace : Colorspace) (clip : Option Rect) (alpha : Bool) : Pixmap :=
  ⟨dl.pageId, dl.rect, matrix, colorspace, clip, alpha⟩

/-- An exported image byte stream (`Pixmap.getImageData`), carrying the
pixmap it encodes and the format string (always "ppm" in this source). -/
structure Image where
  pixmap : Pixmap
  fmt : String
deriving DecidableEq, Repr

/-- `fitz.Pixmap.getImageData(fmt)`. -/
def Pixmap.getImageData (p : Pixmap) (fmt : String) : Image := ⟨p, fmt⟩

/-- The mutable attributes of a `DocumentPages` object (source lines 49-59).
`document` is `none` before the first successful `open_document` (in Python
the attribute is simply absent, and the handle is released on close). -/
structure DocumentPages where
  document : Option Doc
  num_pages : Nat
  page_display_list_cache : List (Option DisplayList)
  page_crop_image_list_cache : List (Option DisplayList)
deriving DecidableEq, Repr

namespace DocumentPages

/-- Source lines 55-59, `clear_cache`: reset the page count and both caches;
the `document` attribute is not touched. -/
def clear_cache (s : DocumentPages) : DocumentPages :=
  { s with num_pages := 0
         , page_display_list_cache := []
         , page_crop_image_list_cache := [] }

/-- Source lines 52-53, `__init__`: a fresh object starts with no document
attribute and calls `clear_cache`. -/
def init : DocumentPages :=
  clear_cache { document := none
              , num_pages := 0
              , page_display_list_cache := []
              , page_crop_image_list_cache := [] }

end DocumentPages

/-- A Python exception class other than the `RuntimeError` that the source
catches, identified by its class name (e.g. "FileNotFoundError"). -/
abbrev PyExn := String

/-- Outcome of the external `fitz.open(doc_fname)` call: a document handle on
success, the RuntimeError the library raises on an unreadable file, or any
other exception class. -/
inductive FitzOpenResult where
  | ok (d : Doc)
  | runtimeError
  | otherError (e : PyExn)
deriving DecidableEq, Repr

/-- Observable outcome of `open_document`: a normal return of the page count
with the updated object state, termination of the whole process with an exit
status after printing a message to stderr, or an exception propagating to the
caller with the object state unchanged by the method body. -/
inductive OpenResult where
  | returns (n : Nat) (s : DocumentPages)
  | exits (code : Nat) (stderr_text : String)
  | raises (e : PyExn) (s : DocumentPages)
deriving DecidableEq, Repr

/-- Modelled from the spec: `ex.cleanup_and_exit` is defined in
`external_program_calls.py`, which is not among the provided sources.  Spec
section 6 describes the facility as one that accepts an exit code and never
returns, terminating the process with that status; the diagnostic text
printed to stderr just before the call (source lines 66-70) is carried along
so the terminal outcome records what the process wrote. -/
def cleanup_and_exit (code : Nat) (stderr_text : String) : OpenResult :=
  OpenResult.exits code stderr_text

/-- The single-quote character, used by the diagnostic message. -/
def squote : String := String.mk [Char.ofNat 39]

/-- The diagnostic of source lines 66-70 up to the format placeholder.  (In
Python the adjacent string literals are concatenated at parse time; the
placeholder is surrounded by single quotes.) -/
def err_msg_a : String :=
  "\nError in pdfCropMargins: The PyMuPDF program could not read"
    ++ " the document\n   " ++ squote

/-- The diagnostic between the substituted file name and the name of the
suggested repair option. -/
def err_msg_b : String :=
  squote ++ "\nin order to display it in the GUI.   If you have"
    ++ " Ghostscript installed\nconsider running pdfCropMargins with the"
    ++ " " ++ squote

/-- The tail of the diagnostic after the repair option name. -/
def err_msg_c : String := squote ++ " option to attempt to repair it."

/-- The stderr diagnostic of source lines 66-70, with `doc_fname`
substituted for the format placeholder. -/
def open_error_message (doc_fname : String) : String :=
  err_msg_a ++ doc_fname ++ (err_msg_b ++ ("--gsFix" ++ err_msg_c))

namespace DocumentPages

/-- Source lines 61-75, `open_document`: try `fitz.open(doc_fname)`.  On
success store the handle, set `num_pages` to the page count, allocate both
caches as `[None] * num_pages`, and return the page count.  On the library
RuntimeError, print the diagnostic to stderr and call
`ex.cleanup_and_exit(1)`.  Any other exception is not caught and propagates
with the object unchanged. -/
def open_document (s : DocumentPages) (fitz_open : FitzOpenResult)
    (doc_fname : String) : OpenResult :=
  match fitz_open with
  | .ok d =>
      let n := d.pages.length
      .returns n { document := some d
                 , num_pages := n
                 , page_display_list_cache := List.replicate n none
                 , page_crop_image_list_cache := List.replicate n none }
  | .runtimeError => cleanup_and_exit 1 (open_error_message doc_fname)
  | .otherError e => .raises e s

/-- Source lines 77-80, `close_document`: close the handle (modelled as
dropping it, since it is released and must not be dereferenced afterwards)
and `clear_cache`. -/
def close_document (s : DocumentPages) : DocumentPages :=
  clear_cache { s with document := none }

end DocumentPages

/-- Result of `get_page_ppm_for_crop`: the PPM image, the updated state, and
whether this call invoked `getDisplayList`. -/
structure CropResult where
  image : Image
  state : DocumentPages
  materialized : Bool
deriving DecidableEq, Repr

/-- Result of `get_page`: the PPM image, the top-left of the clip rectangle
(`clip.tl`, source line 160), the updated state, and whether this call
invoked `getDisplayList`. -/
structure PageResult where
  image : Image
  clip_tl : Point
  state : DocumentPages
  materialized : Bool
deriving DecidableEq, Repr

namespace DocumentPages

end DocumentPages

/-- The lazy-materialization pattern that the source repeats verbatim at
lines 89-92 (on `page_crop_image_list_cache`) and lines 122-125 (on
`page_display_list_cache`): read the cache slot; if it is falsy (`None`),
call `getDisplayList()` on the document page and store the result in the
slot.  Returns the display list, the updated cache, and whether
`getDisplayList` was invoked.  `none` models the Python exceptions for an
out-of-range cache index, a missing `document` attribute, or an
out-of-range document index. -/
def lazy_fill (document : Option Doc) (cache : List (Option DisplayList))
    (page_num : Nat) : Option (DisplayList × List (Option DisplayList) × Bool) :=
  match cache[page_num]? with
  | none => none
  | some (some dl) => some (dl, cache, false)
  | some none =>
      match document with
      | none => none
      | some d =>
          match d.pages[page_num]? with
          | none => none
          | some page =>
              let dl := page.getDisplayList
              some (dl, cache.set page_num (some dl), true)

namespace DocumentPages

/-- Source lines 89-92: the lazy-fill step of `get_page_ppm_for_crop` on the
`page_crop_image_list_cache`. -/
def crop_list_step (s : DocumentPages) (page_num : Nat) :
    Option (DisplayList × DocumentPages × Bool) :=
  match lazy_fill s.document s.page_crop_image_list_cache page_num with
  | none => none
  | some (dl, c, m) =>
      some (dl, { s with page_crop_image_list_cache := c }, m)

/-- Source lines 82-109, `get_page_ppm_for_crop`: lazily fill the crop-image
cache slot for the page, then render it with the identity matrix, grayscale
colorspace, no clip and no alpha, and export as PPM.  (The `mat_0 =
fitz.Matrix(1, 1)` at line 102 is computed and never used.) -/
def get_page_ppm_for_crop (s : DocumentPages) (page_num : Nat) :
    Option CropResult :=
  match s.crop_list_step page_num with
  | none => none
  | some (page_crop_image_list, s1, materialized) =>
      let pixmap := page_crop_image_list.getPixmap Identity Colorspace.gray
                      none false
      some ⟨pixmap.getImageData "ppm", s1, materialized⟩

/-- Source lines 122-125: the lazy-fill step of `get_page` on the
`page_display_list_cache`, in exact analogy with `crop_list_step`. -/
def display_list_step (s : DocumentPages) (page_num : Nat) :
    Option (DisplayList × DocumentPages × Bool) :=
  match lazy_fill s.document s.page_display_list_cache page_num with
  | none => none
  | some (dl, c, m) =>
      some (dl, { s with page_display_list_cache := c }, m)

/-- The zoom directive of `get_page` when it is not `False`: a triple of the
old clip top-left and the two arrow directions (each -1, 0 or +1). -/
structure ZoomArg where
  tl : Point
  dx : ℚ
  dy : ℚ
deriving DecidableEq, Repr

/-- Source lines 111-160, `get_page`.  `window_size` is `none` for a falsy
`window_size` argument; `zoom` is `none` for `zoom=False`; `fit_screen` is
the flag of the Python signature (line 111), which the body never reads.
The local `zoom_x`, `zoom_y`, `scale` of lines 118-120 are computed and
never used, as is the `clip = rect * 0.5` of line 141 (overwritten at line
149), so they have no counterpart here. -/
def get_page (s : DocumentPages) (page_num : Nat)
    (window_size : Option (ℚ × ℚ)) (zoom : Option ZoomArg)
    ( fit_screen : Bool) : Option PageResult :=
  match s.display_list_step page_num with
  | none => none
  | some (page_display_list, s1, materialized) =>
      let rect := page_display_list.rect      -- line 127: the page rectangle
      -- lines 130-136: the fit-to-window scale
      let zoom_0 : ℚ :=
        match window_size with
        | none => 1
        | some ws =>
            let z := min 1 (min (ws.1 / rect.width) (ws.2 / rect.height))
            if z = 1 then min (ws.1 / rect.width) (ws.2 / rect.height) else z
      let mat_0 : Matrix := ⟨zoom_0, zoom_0⟩
      match zoom with
      | some zarg =>                          -- lines 138-153: zoom mode
          let w2 := rect.width / 2
          let h2 := rect.height / 2
          let tlx := min w2 (max 0 (zarg.tl.x + zarg.dx * (w2 / 2)))
          let tly := min h2 (max 0 (zarg.tl.y + zarg.dy * (h2 / 2)))
          let clip : Rect := ⟨tlx, tly, tlx + w2, tly + h2⟩
          let mat := mat_0.mul ⟨2, 2⟩
          let pixmap := page_display_list.getPixmap mat Colorspace.rgb
                          (some clip) false
          some ⟨pixmap.getImageData "ppm", clip.tl, s1, materialized⟩
      | none =>                               -- lines 155-156: whole page
          let clip := rect
          let pixmap := page_display_list.getPixmap mat_0 Colorspace.rgb
                          none false
          some ⟨pixmap.getImageData "ppm", clip.tl, s1, materialized⟩

end DocumentPages

/-! ## Traces of page-rendering calls

To state the caching claims, which quantify over sequences of calls during
one document lifetime, we form traces of the two page-rendering methods. -/

/-- One page-rendering call against an open `DocumentPages` object. -/
inductive Op where
  | crop (page_num : Nat)
  | page (page_num : Nat) (window_size : Option (ℚ × ℚ))
      (zoom : Option DocumentPages.ZoomArg) (fs : Bool)
deriving DecidableEq, Repr

/-- Whether an op is a `get_page_ppm_for_crop` call at index `i`. -/
def Op.isCropAt : Op → Nat → Bool
  | .crop j, i => j = i
  | _, _ => false

/-- Whether an op is a `get_page` call at index `i`. -/
def Op.isPageAt : Op → Nat → Bool
  | .page j _ _ _, i => j = i
  | _, _ => false

/-- Execute one call: the resulting state and whether the call invoked
`getDisplayList`.  A call that fails its (unmodelled) preconditions leaves
the state unchanged and materializes nothing. -/
def applyOp (s : DocumentPages) : Op → DocumentPages × Bool
  | .crop i =>
      match s.get_page_ppm_for_crop i with
      | none => (s, false)
      | some r => (r.state, r.materialized)
  | .page i ws z fs =>
      match s.get_page i ws z fs with
      | none => (s, false)
      | some r => (r.state, r.materialized)

/-- Execute a sequence of calls, recording for each op whether it invoked
`getDisplayList`. -/
def runOps (s : DocumentPages) : List Op → DocumentPages × List (Op × Bool)
  | [] => (s, [])
  | op :: ops =>
      let (s1, m) := applyOp s op
      let (s2, tr) := runOps s1 ops
      (s2, (op, m) :: tr)

/-- Number of `get_page_ppm_for_crop` calls at index `i` in a trace that
invoked `getDisplayList`. -/
def cropMatCount (tr : List (Op × Bool)) (i : Nat) : Nat :=
  (tr.filter (fun p => p.1.isCropAt i && p.2)).length

/-- Number of `get_page` calls at index `i` in a trace that invoked
`getDisplayList`. -/
def pageMatCount (tr : List (Op × Bool)) (i : Nat) : Nat :=
  (tr.filter (fun p => p.1.isPageAt i && p.2)).length

/-- Whether slot `i` of a cache holds a materialized display list. -/
def slot_filled (cache : List (Option DisplayList)) (i : Nat) : Bool :=
  match cache[i]? with
  | some (some _) => true
  | _ => false

/-- The invariant of spec section 3: both cache sequences have exactly
`num_pages` entries. -/
def caches_sized (s : DocumentPages) : Prop :=
  s.page_display_list_cache.length = s.num_pages
    ∧ s.page_crop_image_list_cache.length = s.num_pages

/-! ## Concrete sample data, used by witnesses and counterexamples -/

/-- A concrete sample page of width 100 and height 200. -/
def samplePage0 : Page := ⟨0, ⟨0, 0, 100, 200⟩⟩

/-- A second concrete sample page, of width 300 and height 150. -/
def samplePage1 : Page := ⟨1, ⟨0, 0, 300, 150⟩⟩

/-- A concrete two-page document. -/
def sampleDoc : Doc := ⟨[samplePage0, samplePage1]⟩

/-- The object state right after successfully opening `sampleDoc`. -/
def sampleOpened : DocumentPages :=
  { document := some sampleDoc
  , num_pages := 2
  , page_display_list_cache := [none, none]
  , page_crop_image_list_cache := [none, none] }

/-- The display list of the first sample page. -/
def sampleDl0 : DisplayList := samplePage0.getDisplayList

/-- The display list of the second sample page. -/
def sampleDl1 : DisplayList := samplePage1.getDisplayList

/-- `sampleOpened` after the display-list slot of page 0 is filled. -/
def sampleAfterPage0 : DocumentPages :=
  { sampleOpened with page_display_list_cache := [some sampleDl0, none] }

/-- `sampleOpened` after the display-list slot of page 1 is filled. -/
def sampleAfterPage1 : DocumentPages :=
  { sampleOpened with page_display_list_cache := [none, some sampleDl1] }

/-- The base fit-scale as the spec words it (spec section 8): for a
viewport (Vw,Vh) and page size (W,H), min(1, Vw/W, Vh/H), except that when
this value equals exactly 1 it is min(Vw/W, Vh/H); 1 when no viewport is
supplied.  Written from the claim text, to be compared with what `get_page`
computes. -/
def spec_base_fit_scale (window_size : Option (ℚ × ℚ)) (W H : ℚ) : ℚ :=
  match window_size with
  | none => 1
  | some ws =>
      if min 1 (min (ws.1 / W) (ws.2 / H)) = 1
      then min (ws.1 / W) (ws.2 / H)
      else min 1 (min (ws.1 / W) (ws.2 / H))

/-- Opening `sampleDoc` from the initial state indeed produces
`sampleOpened` with page count 2. -/
theorem sampleOpened_eq_open :
    DocumentPages.init.open_document (FitzOpenResult.ok sampleDoc) "sample.pdf"
      = OpenResult.returns 2 sampleOpened := rfl

/-! ## General helper lemmas -/

/-- Every slot of a `[None] * n` cache is empty. -/
theorem all_isNone_replicate (n : Nat) :
    (List.replicate n (none : Option DisplayList)).all Option.isNone = true := by
  rw [List.all_eq_true]
  intro o ho
  rw [List.eq_of_mem_replicate ho]
  rfl

/-! ## The claims -/

/-- C9: for every in-range page index, viewport size, and zoom directive,
two calls to `get_page` that differ only in the value of the fit-to-viewport
flag (`fit_screen`) produce identical results and identical cache-state
effects: the flag does not alter behavior.  (The returned `PageResult`
includes the updated state, so equal results mean equal cache effects.) -/
theorem C9_fit_screen_dead_parameter (s : DocumentPages) (page_num : Nat)
    (window_size : Option (ℚ × ℚ)) (zoom : Option DocumentPages.ZoomArg)
    (b1 b2 : Bool) :
    s.get_page page_num window_size zoom b1
      = s.get_page page_num window_size zoom b2 := rfl

/-- C4: when the rendering library reports it cannot parse/read the file
(its RuntimeError), `open_document` never returns: the outcome is process
termination with exit status 1 (non-zero), the stderr diagnostic names the
failed path and the external repair option `--gsFix`, and neither a normal
return nor an exception reaches the caller. -/
theorem C4_open_failure_terminates (s : DocumentPages) (doc_fname : String) :
    s.open_document FitzOpenResult.runtimeError doc_fname
        = OpenResult.exits 1 (open_error_message doc_fname)
      ∧ (1 : Nat) ≠ 0
      ∧ (∃ a b : String, open_error_message doc_fname = a ++ doc_fname ++ b)
      ∧ (∃ a b : String, open_error_message doc_fname = a ++ "--gsFix" ++ b)
      ∧ (∀ n s2, s.open_document FitzOpenResult.runtimeError doc_fname
            ≠ OpenResult.returns n s2)
      ∧ (∀ e s2, s.open_document FitzOpenResult.runtimeError doc_fname
            ≠ OpenResult.raises e s2) := by
  refine ⟨rfl, one_ne_zero,
    ⟨err_msg_a, err_msg_b ++ ("--gsFix" ++ err_msg_c), rfl⟩,
    ⟨err_msg_a ++ doc_fname ++ err_msg_b, err_msg_c, ?_⟩, ?_, ?_⟩
  · simp [open_error_message, String.append_assoc]
  · intro n s2 h; exact OpenResult.noConfusion h
  · intro e s2 h; exact OpenResult.noConfusion h

/-- C10: only the rendering library RuntimeError is treated as the fatal
unreadable-file condition; any other exception raised while opening (for
example a missing-file error of a different class) propagates to the caller
with the object state untouched, without the diagnostic-and-exit path and
without a normal return. -/
theorem C10_other_exception_propagates (s : DocumentPages) (doc_fname : String)
    (e : PyExn) :
    s.open_document (FitzOpenResult.otherError e) doc_fname
        = OpenResult.raises e s
      ∧ (∀ code msg, s.open_document (FitzOpenResult.otherError e) doc_fname
            ≠ OpenResult.exits code msg)
      ∧ (∀ n s2, s.open_document (FitzOpenResult.otherError e) doc_fname
            ≠ OpenResult.returns n s2) := by
  refine ⟨rfl, ?_, ?_⟩ <;> · intro a b h; exact OpenResult.noConfusion h

/-- C5: for every path whose open succeeds with a library-reported page
count N, `open_document` stores the document handle, sets `num_pages` to N,
allocates both the render-list cache and the crop-image cache with exactly
N slots all empty, and returns N. -/
theorem C5_open_success (s : DocumentPages) (d : Doc) (doc_fname : String) :
    match s.open_document (FitzOpenResult.ok d) doc_fname with
    | OpenResult.returns n s2 =>
        n = d.pages.length
          ∧ s2.document = some d
          ∧ s2.num_pages = n
          ∧ s2.page_display_list_cache.length = n
          ∧ s2.page_crop_image_list_cache.length = n
          ∧ s2.page_display_list_cache.all Option.isNone = true
          ∧ s2.page_crop_image_list_cache.all Option.isNone = true
    | _ => False := by
  exact ⟨rfl, rfl, rfl, by simp, by simp,
    all_isNone_replicate _, all_isNone_replicate _⟩

/-- Unfolding of `get_page` through a given result of its display-list
lazy-fill step; shared by the geometric claims below. -/
theorem get_page_eq (s : DocumentPages) (page_num : Nat) (dl : DisplayList)
    (s1 : DocumentPages) (m : Bool) (window_size : Option (ℚ × ℚ))
    (zoom : Option DocumentPages.ZoomArg) (fs : Bool)
    (hstep : s.display_list_step page_num = some (dl, s1, m)) :
    s.get_page page_num window_size zoom fs =
      (let rect := dl.rect
       let zoom_0 : ℚ :=
         match window_size with
         | none => 1
         | some ws =>
             let z := min 1 (min (ws.1 / rect.width) (ws.2 / rect.height))
             if z = 1 then min (ws.1 / rect.width) (ws.2 / rect.height) else z
       let mat_0 : Matrix := ⟨zoom_0, zoom_0⟩
       match zoom with
       | some zarg =>
           let w2 := rect.width / 2
           let h2 := rect.height / 2
           let tlx := min w2 (max 0 (zarg.tl.x + zarg.dx * (w2 / 2)))
           let tly := min h2 (max 0 (zarg.tl.y + zarg.dy * (h2 / 2)))
           let clip : Rect := ⟨tlx, tly, tlx + w2, tly + h2⟩
           some ⟨(dl.getPixmap (mat_0.mul ⟨2, 2⟩) Colorspace.rgb (some clip)
                    false).getImageData "ppm",
                 clip.tl, s1, m⟩
       | none =>
           some ⟨(dl.getPixmap mat_0 Colorspace.rgb none false).getImageData
                   "ppm",
                 rect.tl, s1, m⟩) := by
  simp only [DocumentPages.get_page, hstep]

/-- C2: for every page of size (W,H) and every supplied viewport (Vw,Vh)
with W,H > 0, the base fit-scale computed by `get_page` (observable as the
diagonal of the render matrix, doubled in zoom mode) equals
min(1, Vw/W, Vh/H), except when that value equals exactly 1, in which case
the computed scale equals min(Vw/W, Vh/H); when no viewport is supplied the
scale is 1 (see `spec_base_fit_scale`). -/
theorem C2_base_fit_scale (s : DocumentPages) (page_num : Nat)
    (dl : DisplayList) (s1 : DocumentPages) (m : Bool)
    (window_size : Option (ℚ × ℚ)) (zoom : Option DocumentPages.ZoomArg)
    (fs : Bool) (r : PageResult)
    (hstep : s.display_list_step page_num = some (dl, s1, m))
    (hW : 0 < dl.rect.width) (hH : 0 < dl.rect.height)
    (hr : s.get_page page_num window_size zoom fs = some r) :
    r.image.pixmap.matrix =
      Option.elim zoom
        (⟨spec_base_fit_scale window_size dl.rect.width dl.rect.height,
          spec_base_fit_scale window_size dl.rect.width dl.rect.height⟩ :
            Matrix)
        (fun _ =>
          Matrix.mul
            ⟨spec_base_fit_scale window_size dl.rect.width dl.rect.height,
             spec_base_fit_scale window_size dl.rect.width dl.rect.height⟩
            ⟨2, 2⟩) := by
  rw [get_page_eq s page_num dl s1 m window_size zoom fs hstep] at hr
  cases zoom <;> cases window_size <;>
    · obtain rfl := (Option.some.inj hr).symm
      rfl

/-- Witness for C2 at concrete inputs: page 0 of the sample document has
size 100 x 200.  With viewport (50, 50) the scale is min(1, 1/2, 1/4) =
1/4 (generic branch); with viewport (150, 300) the value min(1, 3/2, 3/2)
equals 1, so the special case yields min(3/2, 3/2) = 3/2. -/
theorem C2_base_fit_scale_witness :
    (0 : ℚ) < sampleDl0.rect.width ∧ (0 : ℚ) < sampleDl0.rect.height
      ∧ (∃ r, sampleOpened.get_page 0 (some (50, 50)) none true = some r
            ∧ r.image.pixmap.matrix = ⟨1/4, 1/4⟩)
      ∧ (∃ r, sampleOpened.get_page 0 (some (150, 300)) none true = some r
            ∧ r.image.pixmap.matrix = ⟨3/2, 3/2⟩) := by
  have hWpos : (0 : ℚ) < sampleDl0.rect.width := by
    norm_num [sampleDl0, samplePage0, Page.getDisplayList, Rect.width]
  have hHpos : (0 : ℚ) < sampleDl0.rect.height := by
    norm_num [sampleDl0, samplePage0, Page.getDisplayList, Rect.height]
  have hstep0 : sampleOpened.display_list_step 0
      = some (sampleDl0, sampleAfterPage0, true) := rfl
  refine ⟨hWpos, hHpos, ?_, ?_⟩
  · have hgp := get_page_eq sampleOpened 0 sampleDl0 sampleAfterPage0 true
      (some (50, 50)) none true hstep0
    refine ⟨_, hgp, ?_⟩
    have hm := C2_base_fit_scale sampleOpened 0 sampleDl0 sampleAfterPage0
      true (some (50, 50)) none true _ hstep0 hWpos hHpos hgp
    rw [hm]
    norm_num [spec_base_fit_scale, sampleDl0, samplePage0,
      Page.getDisplayList, Rect.width, Rect.height, min_def,
      Matrix.mk.injEq]
  · have hgp := get_page_eq sampleOpened 0 sampleDl0 sampleAfterPage0 true
      (some (150, 300)) none true hstep0
    refine ⟨_, hgp, ?_⟩
    have hm := C2_base_fit_scale sampleOpened 0 sampleDl0 sampleAfterPage0
      true (some (150, 300)) none true _ hstep0 hWpos hHpos hgp
    rw [hm]
    norm_num [spec_base_fit_scale, sampleDl0, samplePage0,
      Page.getDisplayList, Rect.width, Rect.height, min_def,
      Matrix.mk.injEq]

/-- C3: in zoom mode, for every previous top-left (x,y), every page size
(W,H) with W,H >= 0, and arrow directions dx,dy in -1,0,+1, `get_page`
computes a new top-left whose x-coordinate is x + dx*(W/4) clamped to
[0, W/2] and whose y-coordinate is y + dy*(H/4) clamped to [0, H/2], and
the returned clip rectangle is the quarter-page window of width W/2 and
height H/2 anchored at that clamped top-left. -/
theorem C3_zoom_clamp (s : DocumentPages) (page_num : Nat)
    (dl : DisplayList) (s1 : DocumentPages) (m : Bool)
    (window_size : Option (ℚ × ℚ)) (x y dx dy : ℚ) (fs : Bool)
    (r : PageResult)
    (hstep : s.display_list_step page_num = some (dl, s1, m))
    (hW : 0 ≤ dl.rect.width) (hH : 0 ≤ dl.rect.height)
    (hdx : dx = -1 ∨ dx = 0 ∨ dx = 1) (hdy : dy = -1 ∨ dy = 0 ∨ dy = 1)
    (hr : s.get_page page_num window_size (some ⟨⟨x, y⟩, dx, dy⟩) fs
        = some r) :
    r.clip_tl
        = ⟨min (dl.rect.width / 2) (max 0 (x + dx * (dl.rect.width / 4))),
           min (dl.rect.height / 2) (max 0 (y + dy * (dl.rect.height / 4)))⟩
      ∧ 0 ≤ r.clip_tl.x ∧ r.clip_tl.x ≤ dl.rect.width / 2
      ∧ 0 ≤ r.clip_tl.y ∧ r.clip_tl.y ≤ dl.rect.height / 2
      ∧ r.image.pixmap.clip
          = some ⟨r.clip_tl.x, r.clip_tl.y,
                  r.clip_tl.x + dl.rect.width / 2,
                  r.clip_tl.y + dl.rect.height / 2⟩
      ∧ r.image.pixmap.clip.map Rect.width = some (dl.rect.width / 2)
      ∧ r.image.pixmap.clip.map Rect.height = some (dl.rect.height / 2) := by
  rw [get_page_eq s page_num dl s1 m window_size (some ⟨⟨x, y⟩, dx, dy⟩) fs
    hstep] at hr
  obtain rfl := (Option.some.inj hr).symm
  have e2 : dl.rect.width / 2 / 2 = dl.rect.width / 4 := by ring
  have e2h : dl.rect.height / 2 / 2 = dl.rect.height / 4 := by ring
  refine ⟨?_, ?_, ?_, ?_, ?_, ?_, ?_, ?_⟩
  · exact congrArg₂ Point.mk (by rw [e2]) (by rw [e2h])
  · exact le_min (by linarith) (le_max_left 0 _)
  · exact min_le_left _ _
  · exact le_min (by linarith) (le_max_left 0 _)
  · exact min_le_left _ _
  · rfl
  · exact congrArg some (by simp [Rect.width])
  · exact congrArg some (by simp [Rect.height])

/-- Witness for C3 at a concrete input: page 0 (100 x 200), previous
top-left (60, 150), arrows (+1, +1).  The step W/4 = 25 takes x to 85,
clamped to W/2 = 50; the step H/4 = 50 takes y to 200, clamped to
H/2 = 100; the clip window is (50, 100, 100, 200). -/
theorem C3_zoom_clamp_witness :
    (0 : ℚ) ≤ sampleDl0.rect.width ∧ (0 : ℚ) ≤ sampleDl0.rect.height
      ∧ ((1 : ℚ) = -1 ∨ (1 : ℚ) = 0 ∨ (1 : ℚ) = 1)
      ∧ (∃ r, sampleOpened.get_page 0 none (some ⟨⟨60, 150⟩, 1, 1⟩) true
            = some r
          ∧ r.clip_tl = ⟨50, 100⟩
          ∧ r.image.pixmap.clip = some ⟨50, 100, 100, 200⟩) := by
  have hWnn : (0 : ℚ) ≤ sampleDl0.rect.width := by
    norm_num [sampleDl0, samplePage0, Page.getDisplayList, Rect.width]
  have hHnn : (0 : ℚ) ≤ sampleDl0.rect.height := by
    norm_num [sampleDl0, samplePage0, Page.getDisplayList, Rect.height]
  have hstep0 : sampleOpened.display_list_step 0
      = some (sampleDl0, sampleAfterPage0, true) := rfl
  have hgp := get_page_eq sampleOpened 0 sampleDl0 sampleAfterPage0 true
    none (some ⟨⟨60, 150⟩, 1, 1⟩) true hstep0
  have hc := C3_zoom_clamp sampleOpened 0 sampleDl0 sampleAfterPage0 true
    none 60 150 1 1 true _ hstep0 hWnn hHnn
    (Or.inr (Or.inr rfl)) (Or.inr (Or.inr rfl)) hgp
  refine ⟨hWnn, hHnn, Or.inr (Or.inr rfl), _, hgp, ?_, ?_⟩
  · rw [hc.1]
    norm_num [sampleDl0, samplePage0, Page.getDisplayList, Rect.width,
      Rect.height, min_def, max_def, Point.mk.injEq]
  · rw [hc.2.2.2.2.2.1, hc.1]
    norm_num [sampleDl0, samplePage0, Page.getDisplayList, Rect.width,
      Rect.height, min_def, max_def, Rect.mk.injEq, Option.some.injEq]

/-- C8: for every in-range page index, when no zoom directive is supplied,
`get_page` renders the entire page at the base fit-scale with clip equal to
the full page rectangle (0,0,W,H) — the pixmap request carries no clip, so
the whole page is rasterized — and returns that rectangle's top-left (0,0)
as the rendered-region position. -/
theorem C8_non_zoom_full_page (s : DocumentPages) (page_num : Nat)
    (pid : Nat) (W H : ℚ) (s1 : DocumentPages) (m : Bool)
    (window_size : Option (ℚ × ℚ)) (fs : Bool) (r : PageResult)
    (hstep : s.display_list_step page_num
        = some (⟨pid, ⟨0, 0, W, H⟩⟩, s1, m))
    (hr : s.get_page page_num window_size none fs = some r) :
    r.clip_tl = Rect.tl ⟨0, 0, W, H⟩
      ∧ r.clip_tl = ⟨0, 0⟩
      ∧ r.image.pixmap.clip = none
      ∧ r.image.pixmap.srcRect = ⟨0, 0, W, H⟩
      ∧ r.image.pixmap.matrix
          = ⟨spec_base_fit_scale window_size (Rect.width ⟨0, 0, W, H⟩)
               (Rect.height ⟨0, 0, W, H⟩),
             spec_base_fit_scale window_size (Rect.width ⟨0, 0, W, H⟩)
               (Rect.height ⟨0, 0, W, H⟩)⟩ := by
  rw [get_page_eq s page_num ⟨pid, ⟨0, 0, W, H⟩⟩ s1 m window_size none fs
    hstep] at hr
  cases window_size <;>
    · obtain rfl := (Option.some.inj hr).symm
      exact ⟨rfl, rfl, rfl, rfl, rfl⟩

/-- Witness for C8 at a concrete input: page 1 (300 x 150) rendered
without zoom returns position (0,0) and a pixmap request with no clip. -/
theorem C8_non_zoom_full_page_witness :
    ∃ r, sampleOpened.get_page 1 (some (100, 100)) none false = some r
      ∧ r.clip_tl = ⟨0, 0⟩ ∧ r.image.pixmap.clip = none
      ∧ r.image.pixmap.srcRect = ⟨0, 0, 300, 150⟩ := by
  have hstep1 : sampleOpened.display_list_step 1
      = some (⟨1, ⟨0, 0, 300, 150⟩⟩, sampleAfterPage1, true) := rfl
  have hgp := get_page_eq sampleOpened 1 ⟨1, ⟨0, 0, 300, 150⟩⟩
    sampleAfterPage1 true (some (100, 100)) none false hstep1
  have hc := C8_non_zoom_full_page sampleOpened 1 1 300 150
    sampleAfterPage1 true (some (100, 100)) false _ hstep1 hgp
  exact ⟨_, hgp, hc.2.1, hc.2.2.1, hc.2.2.2.1⟩

/-! ## Lemmas about the shared lazy-fill pattern -/

/-- A filled slot is returned as-is: no materialization, cache unchanged. -/
theorem lazy_fill_of_filled (document : Option Doc)
    (cache : List (Option DisplayList)) (i : Nat) (dl : DisplayList)
    (h : cache[i]? = some (some dl)) :
    lazy_fill document cache i = some (dl, cache, false) := by
  unfold lazy_fill
  rw [h]

/-- An empty in-range slot is materialized from the document page and
stored. -/
theorem lazy_fill_of_empty (document : Option Doc)
    (cache : List (Option DisplayList)) (i : Nat) (d : Doc) (p : Page)
    (h1 : cache[i]? = some none) (h2 : document = some d)
    (h3 : d.pages[i]? = some p) :
    lazy_fill document cache i
      = some (p.getDisplayList, cache.set i (some p.getDisplayList), true) := by
  unfold lazy_fill
  simp only [h1, h2, h3]

/-- Characterization of every successful lazy-fill: either the slot held a
display list (no materialization, cache unchanged), or it was empty and is
now set to the materialized display list. -/
theorem lazy_fill_cases (document : Option Doc)
    (cache : List (Option DisplayList)) (i : Nat) (dl : DisplayList)
    (c : List (Option DisplayList)) (m : Bool)
    (h : lazy_fill document cache i = some (dl, c, m)) :
    (m = false ∧ c = cache ∧ cache[i]? = some (some dl))
      ∨ (m = true ∧ cache[i]? = some none ∧ c = cache.set i (some dl)) := by
  unfold lazy_fill at h
  cases hc : cache[i]? with
  | none =>
      simp only [hc] at h
      exact Option.noConfusion h
  | some slot =>
      simp only [hc] at h
      cases slot with
      | some dl2 =>
          simp only [Option.some.injEq, Prod.mk.injEq] at h
          exact Or.inl ⟨h.2.2.symm, h.2.1.symm, by rw [h.1]⟩
      | none =>
          cases hd : document with
          | none =>
              simp only [hd] at h
              exact Option.noConfusion h
          | some d =>
              simp only [hd] at h
              cases hp : d.pages[i]? with
              | none =>
                  simp only [hp] at h
                  exact Option.noConfusion h
              | some p =>
                  simp only [hp, Option.some.injEq, Prod.mk.injEq] at h
                  refine Or.inr ⟨h.2.2.symm, rfl, ?_⟩
                  rw [← h.2.1, h.1]

/-- A successful lazy-fill at `i` leaves slot `i` filled, whichever branch
was taken. -/
theorem lazy_fill_filled_after (document : Option Doc)
    (cache : List (Option DisplayList)) (i : Nat) (dl : DisplayList)
    (c : List (Option DisplayList)) (m : Bool)
    (h : lazy_fill document cache i = some (dl, c, m)) :
    slot_filled c i = true := by
  rcases lazy_fill_cases document cache i dl c m h with
    ⟨_, rfl, hslot⟩ | ⟨_, hslot, rfl⟩
  · unfold slot_filled; rw [hslot]
  · have hlt : i < cache.length := by
      rcases List.getElem?_eq_some_iff.mp hslot with ⟨hlt, _⟩
      exact hlt
    unfold slot_filled
    rw [List.getElem?_set_self hlt]

/-- A lazy-fill that reports a materialization found its slot empty. -/
theorem lazy_fill_true_was_empty (document : Option Doc)
    (cache : List (Option DisplayList)) (i : Nat) (dl : DisplayList)
    (c : List (Option DisplayList))
    (h : lazy_fill document cache i = some (dl, c, true)) :
    slot_filled cache i = false ∧ c = cache.set i (some dl) := by
  rcases lazy_fill_cases document cache i dl c true h with
    ⟨hfalse, _, _⟩ | ⟨_, hslot, hset⟩
  · exact absurd hfalse (by simp)
  · refine ⟨?_, hset⟩
    unfold slot_filled
    rw [hslot]

/-- Lazy-fill never empties a slot: any slot filled before a successful
lazy-fill (at any index) is still filled afterwards. -/
theorem lazy_fill_mono (document : Option Doc)
    (cache : List (Option DisplayList)) (j i : Nat) (dl : DisplayList)
    (c : List (Option DisplayList)) (m : Bool)
    (h : lazy_fill document cache j = some (dl, c, m))
    (hfill : slot_filled cache i = true) :
    slot_filled c i = true := by
  rcases lazy_fill_cases document cache j dl c m h with
    ⟨_, rfl, _⟩ | ⟨_, hslot, rfl⟩
  · exact hfill
  · by_cases hij : j = i
    · subst hij
      have hlt : j < cache.length := by
        rcases List.getElem?_eq_some_iff.mp hslot with ⟨hlt, _⟩
        exact hlt
      unfold slot_filled
      rw [List.getElem?_set_self hlt]
    · unfold slot_filled at hfill ⊢
      rw [List.getElem?_set_ne hij]
      exact hfill

/-- A lazy-fill on a filled slot changes nothing and materializes
nothing. -/
theorem lazy_fill_of_slot_filled (document : Option Doc)
    (cache : List (Option DisplayList)) (i : Nat)
    (hfill : slot_filled cache i = true) :
    ∃ dl, cache[i]? = some (some dl)
      ∧ lazy_fill document cache i = some (dl, cache, false) := by
  unfold slot_filled at hfill
  cases hc : cache[i]? with
  | none => rw [hc] at hfill; exact absurd hfill (by simp)
  | some slot =>
      cases slot with
      | none => rw [hc] at hfill; exact absurd hfill (by simp)
      | some dl =>
          exact ⟨dl, rfl, lazy_fill_of_filled document cache i dl hc⟩

/-- An empty slot is not filled. -/
theorem slot_filled_of_none (cache : List (Option DisplayList)) (i : Nat)
    (h : cache[i]? = some none) : slot_filled cache i = false := by
  unfold slot_filled
  rw [h]

/-! ## Lemmas about the two page-rendering methods and call traces -/

/-- Unfolding of `get_page_ppm_for_crop` through its lazy-fill step. -/
theorem get_page_ppm_for_crop_eq (s : DocumentPages) (i : Nat) :
    s.get_page_ppm_for_crop i
      = match lazy_fill s.document s.page_crop_image_list_cache i with
        | none => none
        | some (dl, c, m) =>
            some ⟨(dl.getPixmap Identity Colorspace.gray none
                     false).getImageData "ppm",
                  { s with page_crop_image_list_cache := c }, m⟩ := by
  unfold DocumentPages.get_page_ppm_for_crop DocumentPages.crop_list_step
  cases lazy_fill s.document s.page_crop_image_list_cache i with
  | none => rfl
  | some t => rcases t with ⟨dl, c, m⟩; rfl

/-- A failing display-list step makes `get_page` fail. -/
theorem get_page_none (s : DocumentPages) (i : Nat) (ws : Option (ℚ × ℚ))
    (z : Option DocumentPages.ZoomArg) (fs : Bool)
    (h : s.display_list_step i = none) :
    s.get_page i ws z fs = none := by
  unfold DocumentPages.get_page
  simp only [h]

/-- The state and materialization flag of a successful `get_page` are those
of its display-list step, for every window size and zoom directive. -/
theorem get_page_state_eq (s : DocumentPages) (i : Nat)
    (ws : Option (ℚ × ℚ)) (z : Option DocumentPages.ZoomArg) (fs : Bool)
    (dl : DisplayList) (s1 : DocumentPages) (m : Bool)
    (hstep : s.display_list_step i = some (dl, s1, m)) :
    (s.get_page i ws z fs).map (fun r => (r.state, r.materialized))
      = some (s1, m) := by
  rw [get_page_eq s i dl s1 m ws z fs hstep]
  cases z <;> rfl

/-- `applyOp` on a crop call, through the lazy-fill on the crop cache. -/
theorem applyOp_crop_eq (s : DocumentPages) (i : Nat) :
    applyOp s (Op.crop i)
      = match lazy_fill s.document s.page_crop_image_list_cache i with
        | none => (s, false)
        | some (_, c, m) => ({ s with page_crop_image_list_cache := c }, m) := by
  show (match s.get_page_ppm_for_crop i with
        | none => (s, false)
        | some r => (r.state, r.materialized)) = _
  rw [get_page_ppm_for_crop_eq]
  cases lazy_fill s.document s.page_crop_image_list_cache i with
  | none => rfl
  | some t => rcases t with ⟨dl, c, m⟩; rfl

/-- `applyOp` on a page call, through the lazy-fill on the display cache. -/
theorem applyOp_page_eq (s : DocumentPages) (i : Nat) (ws : Option (ℚ × ℚ))
    (z : Option DocumentPages.ZoomArg) (fs : Bool) :
    applyOp s (Op.page i ws z fs)
      = match lazy_fill s.document s.page_display_list_cache i with
        | none => (s, false)
        | some (_, c, m) => ({ s with page_display_list_cache := c }, m) := by
  show (match s.get_page i ws z fs with
        | none => (s, false)
        | some r => (r.state, r.materialized)) = _
  cases hlf : lazy_fill s.document s.page_display_list_cache i with
  | none =>
      have hstep : s.display_list_step i = none := by
        unfold DocumentPages.display_list_step
        simp only [hlf]
      rw [get_page_none s i ws z fs hstep]
  | some t =>
      rcases t with ⟨dl, c, m⟩
      have hstep : s.display_list_step i
          = some (dl, { s with page_display_list_cache := c }, m) := by
        unfold DocumentPages.display_list_step
        simp only [hlf]
      have h := get_page_state_eq s i ws z fs dl _ m hstep
      cases hg : s.get_page i ws z fs with
      | none => rw [hg] at h; exact absurd h (by simp)
      | some r =>
          rw [hg] at h
          simp only [Option.map_some', Option.some.injEq] at h
          exact h

/-- Unfolding `runOps` over a cons. -/
theorem runOps_cons (s : DocumentPages) (op : Op) (ops : List Op) :
    runOps s (op :: ops)
      = ((runOps (applyOp s op).1 ops).1,
         (op, (applyOp s op).2) :: (runOps (applyOp s op).1 ops).2) := rfl

/-- Head step of the crop materialization count. -/
theorem cropMatCount_cons (op : Op) (m : Bool) (tr : List (Op × Bool))
    (i : Nat) :
    cropMatCount ((op, m) :: tr) i
      = (if (op.isCropAt i && m) = true then 1 else 0) + cropMatCount tr i := by
  unfold cropMatCount
  rw [List.filter_cons]
  split <;> simp [Nat.add_comm]

/-- Head step of the page materialization count. -/
theorem pageMatCount_cons (op : Op) (m : Bool) (tr : List (Op × Bool))
    (i : Nat) :
    pageMatCount ((op, m) :: tr) i
      = (if (op.isPageAt i && m) = true then 1 else 0) + pageMatCount tr i := by
  unfold pageMatCount
  rw [List.filter_cons]
  split <;> simp [Nat.add_comm]

/-- No call ever empties a crop-cache slot. -/
theorem applyOp_crop_cache_mono (s : DocumentPages) (op : Op) (i : Nat)
    (h : slot_filled s.page_crop_image_list_cache i = true) :
    slot_filled (applyOp s op).1.page_crop_image_list_cache i = true := by
  cases op with
  | crop j =>
      rw [applyOp_crop_eq]
      cases hlf : lazy_fill s.document s.page_crop_image_list_cache j with
      | none => exact h
      | some t =>
          rcases t with ⟨dl, c, m⟩
          exact lazy_fill_mono _ _ j i dl c m hlf h
  | page j ws z fs =>
      rw [applyOp_page_eq]
      cases hlf : lazy_fill s.document s.page_display_list_cache j with
      | none => exact h
      | some t => rcases t with ⟨dl, c, m⟩; exact h

/-- No call ever empties a display-cache slot. -/
theorem applyOp_display_cache_mono (s : DocumentPages) (op : Op) (i : Nat)
    (h : slot_filled s.page_display_list_cache i = true) :
    slot_filled (applyOp s op).1.page_display_list_cache i = true := by
  cases op with
  | crop j =>
      rw [applyOp_crop_eq]
      cases hlf : lazy_fill s.document s.page_crop_image_list_cache j with
      | none => exact h
      | some t => rcases t with ⟨dl, c, m⟩; exact h
  | page j ws z fs =>
      rw [applyOp_page_eq]
      cases hlf : lazy_fill s.document s.page_display_list_cache j with
      | none => exact h
      | some t =>
          rcases t with ⟨dl, c, m⟩
          exact lazy_fill_mono _ _ j i dl c m hlf h

/-- Over any trace of calls, crop calls at index `i` materialize at most
once, and never once the crop slot is already filled. -/
theorem cropMatCount_le (s : DocumentPages) (ops : List Op) (i : Nat) :
    (slot_filled s.page_crop_image_list_cache i = true →
        cropMatCount (runOps s ops).2 i = 0)
      ∧ cropMatCount (runOps s ops).2 i ≤ 1 := by
  induction ops generalizing s with
  | nil => exact ⟨fun _ => rfl, Nat.zero_le 1⟩
  | cons op ops ih =>
      rcases happ : applyOp s op with ⟨s1, m⟩
      have hrun : cropMatCount (runOps s (op :: ops)).2 i
          = (if (op.isCropAt i && m) = true then 1 else 0)
            + cropMatCount (runOps s1 ops).2 i := by
        rw [runOps_cons, happ]
        exact cropMatCount_cons op m ((runOps s1 ops).2) i
      rw [hrun]
      cases op with
      | page j ws z fs =>
          have hhead : (if ((Op.page j ws z fs).isCropAt i && m) = true
              then 1 else 0) = 0 := by simp [Op.isCropAt]
          rw [hhead, Nat.zero_add]
          have hst : s1 = (applyOp s (Op.page j ws z fs)).1 := by rw [happ]
          constructor
          · intro hf
            refine (ih s1).1 ?_
            rw [hst]
            exact applyOp_crop_cache_mono s _ i hf
          · exact (ih s1).2
      | crop j =>
          rw [applyOp_crop_eq] at happ
          cases hlf : lazy_fill s.document s.page_crop_image_list_cache j with
          | none =>
              rw [hlf] at happ
              injection happ with h1 h2
              subst h1; subst h2
              have hhead : (if ((Op.crop j).isCropAt i && false) = true
                  then 1 else 0) = 0 := by simp
              rw [hhead, Nat.zero_add]
              exact ⟨fun hf => (ih s).1 hf, (ih s).2⟩
          | some t =>
              rcases t with ⟨dl, c, mlf⟩
              rw [hlf] at happ
              injection happ with h1 h2
              subst h1; subst h2
              cases mlf with
              | false =>
                  rcases lazy_fill_cases _ _ _ _ _ _ hlf with
                    ⟨_, rfl, hslot⟩ | ⟨htrue, _, _⟩
                  · have hhead : (if ((Op.crop j).isCropAt i && false) = true
                        then 1 else 0) = 0 := by simp
                    rw [hhead, Nat.zero_add]
                    exact ⟨fun hf => (ih _).1 hf, (ih _).2⟩
                  · exact absurd htrue (by simp)
              | true =>
                  rcases lazy_fill_cases _ _ _ _ _ _ hlf with
                    ⟨hfalse, _, _⟩ | ⟨_, hslot, rfl⟩
                  · exact absurd hfalse (by simp)
                  · have hafter := lazy_fill_filled_after _ _ j dl _ true hlf
                    have hempty := slot_filled_of_none _ _ hslot
                    by_cases hij : j = i
                    · subst hij
                      have hhead : (if ((Op.crop j).isCropAt j && true) = true
                          then 1 else 0) = 1 := by simp [Op.isCropAt]
                      rw [hhead]
                      constructor
                      · intro hf
                        rw [hf] at hempty
                        exact absurd hempty (by simp)
                      · have htail := (ih { s with page_crop_image_list_cache :=
                            s.page_crop_image_list_cache.set j (some dl) }).1
                            hafter
                        rw [htail]
                    · have hhead : (if ((Op.crop j).isCropAt i && true) = true
                          then 1 else 0) = 0 := by simp [Op.isCropAt, hij]
                      rw [hhead, Nat.zero_add]
                      constructor
                      · intro hf
                        refine (ih _).1 ?_
                        show slot_filled
                          (s.page_crop_image_list_cache.set j (some dl)) i = true
                        unfold slot_filled at hf ⊢
                        rw [List.getElem?_set_ne hij]
                        exact hf
                      · exact (ih _).2

/-- Over any trace of calls, page calls at index `i` materialize at most
once, and never once the display slot is already filled. -/
theorem pageMatCount_le (s : DocumentPages) (ops : List Op) (i : Nat) :
    (slot_filled s.page_display_list_cache i = true →
        pageMatCount (runOps s ops).2 i = 0)
      ∧ pageMatCount (runOps s ops).2 i ≤ 1 := by
  induction ops generalizing s with
  | nil => exact ⟨fun _ => rfl, Nat.zero_le 1⟩
  | cons op ops ih =>
      rcases happ : applyOp s op with ⟨s1, m⟩
      have hrun : pageMatCount (runOps s (op :: ops)).2 i
          = (if (op.isPageAt i && m) = true then 1 else 0)
            + pageMatCount (runOps s1 ops).2 i := by
        rw [runOps_cons, happ]
        exact pageMatCount_cons op m ((runOps s1 ops).2) i
      rw [hrun]
      cases op with
      | crop j =>
          have hhead : (if ((Op.crop j).isPageAt i && m) = true
              then 1 else 0) = 0 := by simp [Op.isPageAt]
          rw [hhead, Nat.zero_add]
          have hst : s1 = (applyOp s (Op.crop j)).1 := by rw [happ]
          constructor
          · intro hf
            refine (ih s1).1 ?_
            rw [hst]
            exact applyOp_display_cache_mono s _ i hf
          · exact (ih s1).2
      | page j ws z fs =>
          rw [applyOp_page_eq] at happ
          cases hlf : lazy_fill s.document s.page_display_list_cache j with
          | none =>
              rw [hlf] at happ
              injection happ with h1 h2
              subst h1; subst h2
              have hhead : (if ((Op.page j ws z fs).isPageAt i && false) = true
                  then 1 else 0) = 0 := by simp
              rw [hhead, Nat.zero_add]
              exact ⟨fun hf => (ih s).1 hf, (ih s).2⟩
          | some t =>
              rcases t with ⟨dl, c, mlf⟩
              rw [hlf] at happ
              injection happ with h1 h2
              subst h1; subst h2
              cases mlf with
              | false =>
                  rcases lazy_fill_cases _ _ _ _ _ _ hlf with
                    ⟨_, rfl, hslot⟩ | ⟨htrue, _, _⟩
                  · have hhead : (if ((Op.page j ws z fs).isPageAt i && false)
                        = true then 1 else 0) = 0 := by simp
                    rw [hhead, Nat.zero_add]
                    exact ⟨fun hf => (ih _).1 hf, (ih _).2⟩
                  · exact absurd htrue (by simp)
              | true =>
                  rcases lazy_fill_cases _ _ _ _ _ _ hlf with
                    ⟨hfalse, _, _⟩ | ⟨_, hslot, rfl⟩
                  · exact absurd hfalse (by simp)
                  · have hafter := lazy_fill_filled_after _ _ j dl _ true hlf
                    have hempty := slot_filled_of_none _ _ hslot
                    by_cases hij : j = i
                    · subst hij
                      have hhead : (if ((Op.page j ws z fs).isPageAt j && true)
                          = true then 1 else 0) = 1 := by simp [Op.isPageAt]
                      rw [hhead]
                      constructor
                      · intro hf
                        rw [hf] at hempty
                        exact absurd hempty (by simp)
                      · have htail := (ih { s with page_display_list_cache :=
                            s.page_display_list_cache.set j (some dl) }).1
                            hafter
                        rw [htail]
                    · have hhead : (if ((Op.page j ws z fs).isPageAt i && true)
                          = true then 1 else 0) = 0 := by
                          simp [Op.isPageAt, hij]
                      rw [hhead, Nat.zero_add]
                      constructor
                      · intro hf
                        refine (ih _).1 ?_
                        show slot_filled
                          (s.page_display_list_cache.set j (some dl)) i = true
                        unfold slot_filled at hf ⊢
                        rw [List.getElem?_set_ne hij]
                        exact hf
                      · exact (ih _).2

/-- C1 counterexample: on the freshly opened sample document, the first
`get_page_ppm_for_crop` call for page 0 leaves the render-list cache exactly
as it was — slot 0 is in range and still empty afterwards, so the call
neither populated nor reused a render-list slot — while the crop-image
cache changes from all-empty to holding the materialized display list.
This refutes both halves of the claim at this concrete input. -/
theorem C1_counterexample :
    (sampleOpened.get_page_ppm_for_crop 0).map
        (fun r => (r.state.page_display_list_cache,
                   r.state.page_crop_image_list_cache))
      = some (sampleOpened.page_display_list_cache, [some sampleDl0, none])
      ∧ sampleOpened.page_display_list_cache[0]? = some none
      ∧ sampleOpened.page_crop_image_list_cache = [none, none]
      ∧ ([some sampleDl0, none] ≠ ([none, none] : List (Option DisplayList)))
    := by
  refine ⟨rfl, rfl, rfl, ?_⟩
  simp

/-- C1 (amended): for every in-range page index, `get_page_ppm_for_crop`
populates (when empty) or reuses (when filled) the crop-image cache slot
for that page — a cache of its own, distinct from the render-list cache
used by `get_page` — and it leaves the render-list cache, the page count
and the document handle unchanged; so each of the two operations performs
its own one-time display-list materialization for a page. -/
theorem C1_crop_uses_own_cache (s : DocumentPages) (page_num : Nat)
    (r : CropResult)
    (hr : s.get_page_ppm_for_crop page_num = some r) :
    r.state.page_display_list_cache = s.page_display_list_cache
      ∧ r.state.document = s.document
      ∧ r.state.num_pages = s.num_pages
      ∧ slot_filled r.state.page_crop_image_list_cache page_num = true
      ∧ (slot_filled s.page_crop_image_list_cache page_num = true →
            r.state = s ∧ r.materialized = false)
      ∧ (s.page_crop_image_list_cache[page_num]? = some none →
            r.materialized = true
              ∧ ∃ dl, r.state.page_crop_image_list_cache
                  = s.page_crop_image_list_cache.set page_num (some dl)) := by
  rw [get_page_ppm_for_crop_eq] at hr
  cases hlf : lazy_fill s.document s.page_crop_image_list_cache page_num with
  | none =>
      rw [hlf] at hr
      exact absurd hr (by simp)
  | some t =>
      rcases t with ⟨dl, c, m⟩
      rw [hlf] at hr
      obtain rfl := (Option.some.inj hr).symm
      refine ⟨rfl, rfl, rfl, ?_, ?_, ?_⟩
      · exact lazy_fill_filled_after _ _ page_num dl c m hlf
      · intro hf
        rcases lazy_fill_of_slot_filled s.document _ page_num hf with
          ⟨dl2, _, heq⟩
        have hcomb := heq.symm.trans hlf
        injection hcomb with htrip
        injection htrip with hdl hrest
        injection hrest with hcache hm
        constructor
        · show ({ s with page_crop_image_list_cache := c }) = s
          rw [← hcache]
        · exact hm.symm
      · intro hempty
        rcases lazy_fill_cases _ _ _ _ _ _ hlf with
          ⟨_, _, hslot⟩ | ⟨hm, _, hset⟩
        · rw [hempty] at hslot
          exact absurd hslot (by simp)
        · exact ⟨hm, dl, hset⟩

/-- Witness for C1 (amended) at a concrete input: the first crop call on
page 0 of the sample document keeps the render-list cache and fills its own
crop slot. -/
theorem C1_crop_uses_own_cache_witness :
    ∃ r, sampleOpened.get_page_ppm_for_crop 0 = some r
      ∧ r.state.page_display_list_cache = sampleOpened.page_display_list_cache
      ∧ slot_filled r.state.page_crop_image_list_cache 0 = true := by
  have hr : sampleOpened.get_page_ppm_for_crop 0
      = some ⟨(sampleDl0.getPixmap Identity Colorspace.gray none
                 false).getImageData "ppm",
              { sampleOpened with
                  page_crop_image_list_cache := [some sampleDl0, none] },
              true⟩ := rfl
  have hc := C1_crop_uses_own_cache sampleOpened 0 _ hr
  exact ⟨_, hr, hc.1, hc.2.2.2.1⟩

/-- C6 counterexample: on the freshly opened sample document, the first
page-rendering call for index 0 (`get_page_ppm_for_crop`) invokes the
display-list materialization, and the very next page-rendering call for the
same index (`get_page`) invokes it again — the claimed "every subsequent
call for the same index reuses the stored value without invoking
materialization again" fails across the two operations, because each uses
its own cache. -/
theorem C6_counterexample :
    (sampleOpened.get_page_ppm_for_crop 0).map CropResult.materialized
        = some true
      ∧ ((sampleOpened.get_page_ppm_for_crop 0).bind
            (fun r => r.state.get_page 0 none none true)).map
          PageResult.materialized = some true := ⟨rfl, rfl⟩

/-- C6 (amended): each of the two page-rendering operations maintains its
own cache slot per page, populated at most once per document lifetime: over
any sequence of calls, at most one crop call and at most one page call
materialize a given index; a call that finds its own slot filled returns
with the state unchanged and no materialization; a call that finds its own
slot empty (document present, page in range) performs the materialization. -/
theorem C6_per_operation_at_most_once (s : DocumentPages) (ops : List Op)
    (i : Nat) (d : Doc) (p : Page) :
    cropMatCount (runOps s ops).2 i ≤ 1
      ∧ pageMatCount (runOps s ops).2 i ≤ 1
      ∧ (slot_filled s.page_crop_image_list_cache i = true →
          (s.get_page_ppm_for_crop i).map (fun r => (r.state, r.materialized))
            = some (s, false))
      ∧ (s.page_crop_image_list_cache[i]? = some none →
          s.document = some d → d.pages[i]? = some p →
          (s.get_page_ppm_for_crop i).map CropResult.materialized = some true)
      ∧ (∀ ws z fs, slot_filled s.page_display_list_cache i = true →
          (s.get_page i ws z fs).map (fun r => (r.state, r.materialized))
            = some (s, false))
      ∧ (∀ ws z fs, s.page_display_list_cache[i]? = some none →
          s.document = some d → d.pages[i]? = some p →
          (s.get_page i ws z fs).map PageResult.materialized = some true) := by
  refine ⟨(cropMatCount_le s ops i).2, (pageMatCount_le s ops i).2,
    ?_, ?_, ?_, ?_⟩
  · intro hf
    rcases lazy_fill_of_slot_filled s.document _ i hf with ⟨dl, _, heq⟩
    rw [get_page_ppm_for_crop_eq, heq]
    rfl
  · intro h1 h2 h3
    rw [get_page_ppm_for_crop_eq,
      lazy_fill_of_empty s.document _ i d p h1 h2 h3]
    rfl
  · intro ws z fs hf
    rcases lazy_fill_of_slot_filled s.document _ i hf with ⟨dl, _, heq⟩
    have hstep : s.display_list_step i = some (dl, s, false) := by
      unfold DocumentPages.display_list_step
      rw [heq]
    exact get_page_state_eq s i ws z fs dl s false hstep
  · intro ws z fs h1 h2 h3
    have hstep : s.display_list_step i
        = some (p.getDisplayList,
            { s with page_display_list_cache :=
                s.page_display_list_cache.set i (some p.getDisplayList) },
            true) := by
      unfold DocumentPages.display_list_step
      rw [lazy_fill_of_empty s.document _ i d p h1 h2 h3]
    have h := get_page_state_eq s i ws z fs _ _ true hstep
    cases hg : s.get_page i ws z fs with
    | none => rw [hg] at h; exact absurd h (by simp)
    | some r =>
        rw [hg] at h
        simp only [Option.map_some', Option.some.injEq, Prod.mk.injEq] at h
        simp only [Option.map_some', Option.some.injEq]
        exact h.2

/-- Witness for C6 (amended): on the sample document, two successive crop
calls for page 0 materialize at most once, and the first crop call (empty
slot) does materialize. -/
theorem C6_per_operation_at_most_once_witness :
    cropMatCount (runOps sampleOpened [Op.crop 0, Op.crop 0]).2 0 ≤ 1
      ∧ pageMatCount (runOps sampleOpened [Op.crop 0, Op.crop 0]).2 0 ≤ 1
      ∧ (sampleOpened.get_page_ppm_for_crop 0).map CropResult.materialized
          = some true := by
  have h := C6_per_operation_at_most_once sampleOpened [Op.crop 0, Op.crop 0]
    0 sampleDoc samplePage0
  exact ⟨h.1, h.2.1, h.2.2.2.1 rfl rfl rfl⟩

/-- C7: both cache sequences have exactly `num_pages` entries after a
successful open and exactly 0 entries after close, a `clear_cache` or the
initial state; `close_document` resets the page count to 0 and both caches
to empty; every page-rendering call preserves the size invariant; and a
subsequent open yields a state that does not depend on the prior state at
all — no slot is carried over. -/
theorem C7_cache_sizes (s t : DocumentPages) (d : Doc) (doc_fname : String)
    (op : Op) :
    (DocumentPages.init.num_pages = 0
       ∧ DocumentPages.init.page_display_list_cache = []
       ∧ DocumentPages.init.page_crop_image_list_cache = [])
      ∧ (s.clear_cache.num_pages = 0
         ∧ s.clear_cache.page_display_list_cache = []
         ∧ s.clear_cache.page_crop_image_list_cache = [])
      ∧ (match s.open_document (FitzOpenResult.ok d) doc_fname with
         | OpenResult.returns n s2 => s2.num_pages = n ∧ caches_sized s2
         | _ => False)
      ∧ (s.close_document.num_pages = 0
         ∧ s.close_document.page_display_list_cache = []
         ∧ s.close_document.page_crop_image_list_cache = [])
      ∧ (caches_sized s → caches_sized (applyOp s op).1)
      ∧ s.close_document.open_document (FitzOpenResult.ok d) doc_fname
          = t.open_document (FitzOpenResult.ok d) doc_fname := by
  refine ⟨⟨rfl, rfl, rfl⟩, ⟨rfl, rfl, rfl⟩, ⟨rfl, by simp, by simp⟩,
    ⟨rfl, rfl, rfl⟩, ?_, rfl⟩
  intro hs
  cases op with
  | crop j =>
      rw [applyOp_crop_eq]
      cases hlf : lazy_fill s.document s.page_crop_image_list_cache j with
      | none => exact hs
      | some tr =>
          rcases tr with ⟨dl, c, m⟩
          rcases lazy_fill_cases _ _ _ _ _ _ hlf with
            ⟨_, rfl, _⟩ | ⟨_, _, rfl⟩
          · exact hs
          · refine ⟨hs.1, ?_⟩
            show (s.page_crop_image_list_cache.set j (some dl)).length
              = s.num_pages
            rw [List.length_set]
            exact hs.2
  | page j ws z fs =>
      rw [applyOp_page_eq]
      cases hlf : lazy_fill s.document s.page_display_list_cache j with
      | none => exact hs
      | some tr =>
          rcases tr with ⟨dl, c, m⟩
          rcases lazy_fill_cases _ _ _ _ _ _ hlf with
            ⟨_, rfl, _⟩ | ⟨_, _, rfl⟩
          · exact hs
          · refine ⟨?_, hs.2⟩
            show (s.page_display_list_cache.set j (some dl)).length
              = s.num_pages
            rw [List.length_set]
            exact hs.1

/-- Witness for C7 at concrete inputs: the sample opened state satisfies
the size invariant, a crop call preserves it, and opening the sample
document yields a correctly sized state. -/
theorem C7_cache_sizes_witness :
    caches_sized sampleOpened
      ∧ caches_sized (applyOp sampleOpened (Op.crop 0)).1
      ∧ (match DocumentPages.init.open_document (FitzOpenResult.ok sampleDoc)
             "sample.pdf" with
         | OpenResult.returns n s2 => s2.num_pages = n ∧ caches_sized s2
         | _ => False) := by
  have hsized : caches_sized sampleOpened := ⟨rfl, rfl⟩
  have h := C7_cache_sizes sampleOpened sampleOpened sampleDoc "sample.pdf"
    (Op.crop 0)
  have h2 := C7_cache_sizes DocumentPages.init sampleOpened sampleDoc
    "sample.pdf" (Op.crop 0)
  exact ⟨hsized, h.2.2.2.2.1 hsized, h2.2.2.1⟩

end PdfCropMargins
